import Mathlib

/-!
Verification development for the indexd blockchain indexing engine
(src/blockchain.js).  The engine maintains five ordered key-value indices
(Tip, TxIndex, TxoIndex, SpentIndex, ScriptIndex, FeeIndex) and mutates
them through `connect` / `disconnect`, with a second-phase fee-statistics
derivation on connect, plus a read-only query surface.

Embedding conventions:
- JS numbers that hold block heights, values and fees are embedded as `Int`
  (JS arithmetic on them is exact integer arithmetic in the relevant range;
  `Math.floor(a / b)` is `Int.fdiv`).
- txIds, scriptIds and vouts are embedded as `Nat`.  Real txIds/scIds are
  fixed-length byte strings compared byte-lexicographically; on fixed-length
  strings that order coincides with the numeric order of their values, and
  the all-zero string ZERO64 corresponds to 0, the minimum.
- The ordered key-value store is embedded as association lists kept sorted
  by a strict key order; `put` is insert-or-overwrite, `del` removes the
  key, iteration with gte/lt bounds is an order-preserving filter.
- Callback-style fallible code returns `Except String` / `Option`; the
  run-parallel fail-fast task group is `parallelE` (task order, first
  error aborts).
-/

set_option maxRecDepth 10000

namespace Indexd

/-- A transaction input as delivered by the rpc layer: `{ coinbase, prevTxId, vout }`
(src/blockchain.js lines 22-28, 78-94). -/
structure Input where
  coinbase : Bool
  prevTxId : Nat
  vout : Nat
  deriving DecidableEq

/-- A transaction output `{ scId, value, vout }` (src/blockchain.js line 30). -/
structure Output where
  scId : Nat
  value : Int
  vout : Nat
  deriving DecidableEq

/-- A transaction `{ txId, ins, outs, vsize }`; the raw tx bytes only feed
notification payloads and are dropped from the model. -/
structure Tx where
  txId : Nat
  ins : List Input
  outs : List Output
  vsize : Int
  deriving DecidableEq

/-- A block as returned by `rpcUtil.block`: `{ height, transactions,
previousblockhash, size }` plus its own id. -/
structure Block where
  blockId : Nat
  height : Int
  previousblockhash : Nat
  size : Int
  transactions : List Tx
  deriving DecidableEq

/-- The Tip singleton row `{ blockId, height }`. -/
structure TipRow where
  blockId : Nat
  height : Int
  deriving DecidableEq

/-- A SpentIndex value `{ txId, vin }`: the spender of the keyed output. -/
structure SpentRow where
  txId : Nat
  vin : Nat
  deriving DecidableEq

/-- Modelled from the spec: types.js (the index key/value layouts) is not
under src/.  Spec section 3 gives ScriptIndex the composite key
(scriptId, height, txId, vout) with empty value, and sections 3/6 require
composite keys to sort byte-lexicographically in declared field order. -/
structure ScKey where
  scId : Nat
  height : Int
  txId : Nat
  vout : Nat
  deriving DecidableEq

/-- The fee quartiles `{ q1, median, q3 }` produced by `box`. -/
structure FeeQuartiles where
  q1 : Int
  median : Int
  q3 : Int
  deriving DecidableEq

/-- A FeeIndex value `{ fees, size }` (src/blockchain.js line 124). -/
structure FeeRow where
  fees : FeeQuartiles
  size : Int
  deriving DecidableEq

/-- A row of the `txosByScriptId` result map `{ txId, vout, scId, height }`. -/
structure TxoRow where
  txId : Nat
  vout : Nat
  scId : Nat
  height : Int
  deriving DecidableEq

/-- A row of the `fees` result list `{ height, fees, size }`. -/
structure FeeResult where
  height : Int
  fees : FeeQuartiles
  size : Int
  deriving DecidableEq

section Assoc

variable {κ : Type} {α : Type} [DecidableEq κ]

/-- Sorted-association-list insert-or-overwrite: the model of the ordered
key-value store's `put`.  Overwrites in place when the key exists. -/
def putA (lt : κ → κ → Bool) (k : κ) (v : α) : List (κ × α) → List (κ × α)
  | [] => [(k, v)]
  | kv :: rest =>
    if k = kv.1 then (k, v) :: rest
    else if lt k kv.1 then (k, v) :: kv :: rest
    else kv :: putA lt k v rest

/-- Point lookup: the model of the store's `get` (absent keys give `none`). -/
def getA (k : κ) (l : List (κ × α)) : Option α :=
  (l.find? (fun kv => decide (kv.1 = k))).map (fun kv => kv.2)

/-- Key deletion: the model of the store's `del`. -/
def delA (k : κ) (l : List (κ × α)) : List (κ × α) :=
  l.filter (fun kv => decide (kv.1 ≠ k))

/-- Inclusive lower iterator bound: `g <= k` in the key order. -/
def geB (lt : κ → κ → Bool) (g k : κ) : Bool :=
  lt g k || decide (g = k)

/-- Iterator bound check for a range scan with optional `gte` and `lt`
bounds, as offered by the ordered key-value store. -/
def inRange (lt : κ → κ → Bool) (gte ltb : Option κ) (k : κ) : Bool :=
  (match gte with
   | none => true
   | some g => geB lt g k) &&
  (match ltb with
   | none => true
   | some u => lt k u)

end Assoc

/-- Strict order on `Int` keys (FeeIndex, TxIndex heights). -/
def intLt (a b : Int) : Bool := decide (a < b)

/-- Strict order on `Nat` keys (TxIndex txId). -/
def natLt (a b : Nat) : Bool := decide (a < b)

/-- Strict lexicographic order on (txId, vout) pairs (TxoIndex, SpentIndex). -/
def pairLt (a b : Nat × Nat) : Bool :=
  decide (a.1 < b.1) || (decide (a.1 = b.1) && decide (a.2 < b.2))

/-- Modelled from the spec: byte-lexicographic order of the serialized
(scriptId, height, txId, vout) ScriptIndex key (types.js is not under src/;
spec sections 3 and 6 fix field order and byte-lexicographic sorting, which
on the fixed-width field encodings coincides with this field-wise order). -/
def scLt (a b : ScKey) : Bool :=
  decide (a.scId < b.scId) ||
  (decide (a.scId = b.scId) &&
   (decide (a.height < b.height) ||
    (decide (a.height = b.height) &&
     (decide (a.txId < b.txId) ||
      (decide (a.txId = b.txId) && decide (a.vout < b.vout))))))

/-- The whole database: the five ordered indices plus the Tip singleton. -/
structure DB where
  tip : Option TipRow
  txIndex : List (Nat × Int)
  txoIndex : List ((Nat × Nat) × Int)
  spentIndex : List ((Nat × Nat) × SpentRow)
  scIndex : List (ScKey × Unit)
  feeIndex : List (Int × FeeRow)
  deriving DecidableEq

/-- One mutation of the atomic batch (`atomic.put` / `atomic.del` on a
specific index). -/
inductive Op
  | putTip (v : TipRow)
  | putTx (txId : Nat) (height : Int)
  | delTx (txId : Nat)
  | putTxo (txId : Nat) (vout : Nat) (value : Int)
  | delTxo (txId : Nat) (vout : Nat)
  | putSpent (prevTxId : Nat) (prevVout : Nat) (txId : Nat) (vin : Nat)
  | delSpent (prevTxId : Nat) (prevVout : Nat)
  | putSc (k : ScKey)
  | delSc (k : ScKey)
  | putFee (height : Int) (v : FeeRow)
  deriving DecidableEq

/-- Whether an op is the FeeIndex put. -/
def Op.isPutFee : Op → Bool
  | .putFee _ _ => true
  | _ => false

/-- Whether an op is a deletion. -/
def Op.isDel : Op → Bool
  | .delTx _ => true
  | .delTxo _ _ => true
  | .delSpent _ _ => true
  | .delSc _ => true
  | _ => false

/-- Apply one batch op to the database. -/
def applyOp (db : DB) : Op → DB
  | .putTip v => { db with tip := some v }
  | .putTx k h => { db with txIndex := putA natLt k h db.txIndex }
  | .delTx k => { db with txIndex := delA k db.txIndex }
  | .putTxo t v value => { db with txoIndex := putA pairLt (t, v) value db.txoIndex }
  | .delTxo t v => { db with txoIndex := delA (t, v) db.txoIndex }
  | .putSpent pt pv t vin => { db with spentIndex := putA pairLt (pt, pv) ⟨t, vin⟩ db.spentIndex }
  | .delSpent pt pv => { db with spentIndex := delA (pt, pv) db.spentIndex }
  | .putSc k => { db with scIndex := putA scLt k () db.scIndex }
  | .delSc k => { db with scIndex := delA k db.scIndex }
  | .putFee h v => { db with feeIndex := putA intLt h v db.feeIndex }

/-- Commit an atomic batch: apply its ops in order. -/
def applyBatch (db : DB) (ops : List Op) : DB := ops.foldl applyOp db

/-- An `emitter.emit` notification scheduled by `connect` (raw tx/header
bytes payloads are dropped from the model). -/
inductive Event
  | spent (key : String) (txId : Nat)
  | script (scId : Nat) (txId : Nat)
  | transaction (txId : Nat) (blockId : Nat)
  | block (blockId : Nat) (height : Int)
  deriving DecidableEq

/-- The `"prevTxId:vout"` string key carried by `spent` notifications and
used for the txo result maps. -/
def txoKeyStr (txId vout : Nat) : String :=
  toString txId ++ ":" ++ toString vout

/-- Batch ops contributed by one transaction during `connect`
(src/blockchain.js lines 19-38): SpentIndex puts for its non-coinbase
inputs (vin is the input's position), ScriptIndex and TxoIndex puts for
its outputs (using the output's own `vout` field), then its TxIndex put. -/
def txConnectOps (height : Int) (tx : Tx) : List Op :=
  (tx.ins.enum.filterMap (fun p =>
    if p.2.coinbase then none
    else some (.putSpent p.2.prevTxId p.2.vout tx.txId p.1))) ++
  (tx.outs.flatMap (fun o =>
    [.putSc ⟨o.scId, height, tx.txId, o.vout⟩, .putTxo tx.txId o.vout o.value])) ++
  [.putTx tx.txId height]

/-- The first-phase `connect` batch: per-transaction ops, then the Tip put
`{ blockId, height }` (src/blockchain.js line 46).  `blockId` is the
argument of `connect`; `height` everywhere is the fetched block's height,
which shadows the `connect` height parameter. -/
def connectBatch (blockId : Nat) (b : Block) : List Op :=
  (b.transactions.flatMap (txConnectOps b.height)) ++ [.putTip ⟨blockId, b.height⟩]

/-- Batch ops contributed by one transaction during `disconnect`
(src/blockchain.js lines 136-150).  Unlike `connect`, the ScriptIndex and
TxoIndex deletions use the output's position in `outs` as the vout. -/
def txDisconnectOps (height : Int) (tx : Tx) : List Op :=
  (tx.ins.filterMap (fun i =>
    if i.coinbase then none else some (.delSpent i.prevTxId i.vout))) ++
  (tx.outs.enum.flatMap (fun p =>
    [.delSc ⟨p.2.scId, height, tx.txId, p.1⟩, .delTxo tx.txId p.1])) ++
  [.delTx tx.txId]

/-- The `disconnect` batch: per-transaction deletions, then the Tip put
`{ blockId: block.previousblockhash, height }` (src/blockchain.js line 153).
Note the height written is the disconnected block's own height. -/
def disconnectBatch (b : Block) : List Op :=
  (b.transactions.flatMap (txDisconnectOps b.height)) ++
  [.putTip ⟨b.previousblockhash, b.height⟩]

/-- Notifications scheduled for one transaction during `connect`: `spent`
for non-coinbase inputs, `script` per output, then `transaction`. -/
def txEvents (blockId : Nat) (tx : Tx) : List Event :=
  (tx.ins.filterMap (fun i =>
    if i.coinbase then none
    else some (.spent (txoKeyStr i.prevTxId i.vout) tx.txId))) ++
  (tx.outs.map (fun o => .script o.scId tx.txId)) ++
  [.transaction tx.txId blockId]

/-- All notifications scheduled by `connect`; the `block` notification is
emitted only if the deferred header fetch for `blockId` succeeds
(src/blockchain.js lines 40-43), and carries the block's own height. -/
def connectEvents (blockId : Nat) (b : Block) (hdr : Nat → Bool) : List Event :=
  (b.transactions.flatMap (txEvents blockId)) ++
  (if hdr blockId then [.block blockId b.height] else [])

/-- The run-parallel task group over `Except`: tasks in order, first error
aborts the group (src uses run-parallel with fail-fast join; which failing
task's error surfaces is scheduling-dependent, the model picks the first
in task order). -/
def parallelE (f : α → Except String β) : List α → Except String (List β)
  | [] => .ok []
  | a :: l =>
    match f a with
    | .error e => .error e
    | .ok b =>
      match parallelE f l with
      | .error e => .error e
      | .ok bs => .ok (b :: bs)

/-- Accumulate the resolved input values of a transaction (`inAccum`,
src/blockchain.js lines 78-94): every non-coinbase input's previous output
value is looked up in TxoIndex; a missing output is the
`Missing prevTxId:vout` error. -/
def sumInputValues (txo : List ((Nat × Nat) × Int)) : List Input → Except String Int
  | [] => .ok 0
  | i :: rest =>
    if i.coinbase then sumInputValues txo rest
    else
      match getA (i.prevTxId, i.vout) txo with
      | none => .error ("Missing " ++ txoKeyStr i.prevTxId i.vout)
      | some v =>
        match sumInputValues txo rest with
        | .error e => .error e
        | .ok s => .ok (v + s)

/-- The declared output value sum of a transaction (`outAccum`). -/
def outAccum (tx : Tx) : Int := (tx.outs.map (fun o => o.value)).sum

/-- One transaction's contribution to the block fee-rate sample
(src/blockchain.js lines 72-114): 0 if any input is coinbase (no TxoIndex
lookup affects it), otherwise `Math.floor((inAccum - outAccum) / vsize)`,
i.e. `Int.fdiv`; a negative fee is used as-is. -/
def txFeeRate (txo : List ((Nat × Nat) × Int)) (tx : Tx) : Except String Int :=
  if tx.ins.any (fun i => i.coinbase) then .ok 0
  else
    match sumInputValues txo tx.ins with
    | .error e => .error e
    | .ok inAccum => .ok (Int.fdiv (inAccum - outAccum tx) tx.vsize)

/-- The block's fee-rate sample, resolved against the given database state
(during `connect` this is the state after the first-phase commit).  The
real pushes complete in scheduling order; since the sample is sorted
before use, task order is an equivalent model. -/
def feeRatesOf (db : DB) (b : Block) : Except String (List Int) :=
  parallelE (txFeeRate db.txoIndex) b.transactions

/-- Ascending insertion into a sorted list of fee rates. -/
def insFee (x : Int) : List Int → List Int
  | [] => [x]
  | y :: l => if x ≤ y then x :: y :: l else y :: insFee x l

/-- The ascending numeric sort `feeRates.sort((a, b) => a - b)`
(src/blockchain.js line 122).  On a totally ordered sample any correct
sort produces the same list, so insertion sort is an exact model. -/
def sortFees : List Int → List Int
  | [] => []
  | x :: l => insFee x (sortFees l)

/-- The quartile summary `box` (src/blockchain.js lines 55-65); `(n/4)|0`
and `(n/2)|0` are Nat floor division, and for a nonempty sample all three
indices are in bounds, so the `getD` default is never used. -/
def box (data : List Int) : FeeQuartiles :=
  if data.length = 0 then ⟨0, 0, 0⟩
  else
    let quarter := data.length / 4
    let midpoint := data.length / 2
    ⟨data.getD quarter 0, data.getD midpoint 0, data.getD (midpoint + quarter) 0⟩

/-- The outcome of a `connect` / `disconnect` call: the database state at
return, the notifications scheduled during the call, and the error handed
to the callback (if any). -/
structure MutResult where
  db : DB
  events : List Event
  err : Option String
  deriving DecidableEq

/-- Second-phase fee derivation `connect2ndOrder` (src/blockchain.js lines
67-127): derives the fee-rate sample, sorts it, and commits
`FeeIndex[height] = { fees: box(sorted), size: block.size }` in a fresh
atomic batch; a derivation failure commits nothing and fails the call.
It schedules no notifications of its own. -/
def connect2ndOrder (b : Block) (db : DB) : MutResult :=
  match feeRatesOf db b with
  | .error e => ⟨db, [], some e⟩
  | .ok rates =>
    ⟨applyBatch db [.putFee b.height ⟨box (sortFees rates), b.size⟩], [], none⟩

/-- `Blockchain.prototype.connect` (src/blockchain.js lines 12-53): fetch
the block, commit the first-phase batch, then run `connect2ndOrder` on the
committed state.  The `height` parameter is shadowed by the fetched
block's height and is never used. -/
def connect (fetch : Nat → Option Block) (hdr : Nat → Bool) (blockId : Nat)
    (height : Int) (db : DB) : MutResult :=
  match fetch blockId with
  | none => ⟨db, [], some "FetchError"⟩
  | some b =>
    let db1 := applyBatch db (connectBatch blockId b)
    let r2 := connect2ndOrder b db1
    ⟨r2.db, connectEvents blockId b hdr, r2.err⟩

/-- `Blockchain.prototype.disconnect` (src/blockchain.js lines 129-156):
fetch the block and commit the deletion batch; no notification is emitted
anywhere on this path. -/
def disconnect (fetch : Nat → Option Block) (blockId : Nat) (db : DB) : MutResult :=
  match fetch blockId with
  | none => ⟨db, [], some "FetchError"⟩
  | some b => ⟨applyBatch db (disconnectBatch b), [], none⟩

/-- `Blockchain.prototype.fees` (src/blockchain.js lines 168-181): reads
Tip, then range-scans FeeIndex with `gte height = tip.height - n`.  When
Tip is absent the code dereferences `result.height` on `undefined` and
throws synchronously instead of using its error callback; that escape is
modelled as `none`. -/
def fees (db : DB) (n : Int) : Option (List FeeResult) :=
  match db.tip with
  | none => none
  | some t =>
    some (((db.feeIndex.filter
        (fun kv => inRange intLt (some (t.height - n)) none kv.1)).map
      (fun kv => FeeResult.mk kv.1 kv.2.fees kv.2.size)))

/-- The ScriptIndex range scan of `txosByScriptId` (src/blockchain.js lines
242-244): `gte (scId, height, ZERO64, 0)`, `lt (scId, 0xffffffff, ZERO64, 0)`. -/
def scanRange (db : DB) (scId : Nat) (height : Int) : List (ScKey × Unit) :=
  db.scIndex.filter
    (fun kv => inRange scLt (some ⟨scId, height, 0, 0⟩)
      (some ⟨scId, 4294967295, 0, 0⟩) kv.1)

/-- JS object property assignment `m[k] = v`: overwrites in place when the
key exists, otherwise appends (string keys enumerate in insertion order). -/
def jsInsert (k : String) (v : α) (m : List (String × α)) : List (String × α) :=
  if (m.find? (fun kv => decide (kv.1 = k))).isSome then
    m.map (fun kv => if kv.1 = k then (k, v) else kv)
  else m ++ [(k, v)]

/-- `Blockchain.prototype.txosByScriptId` (src/blockchain.js lines 239-248):
the range scan's rows keyed by `"txId:vout"`, each row
`{ txId, vout, scId, height }` with `scId` the query argument. -/
def txosByScriptId (db : DB) (scId : Nat) (height : Int) : List (String × TxoRow) :=
  (scanRange db scId height).foldl
    (fun m kv =>
      jsInsert (txoKeyStr kv.1.txId kv.1.vout)
        (TxoRow.mk kv.1.txId kv.1.vout scId kv.1.height) m)
    []

/-- `Blockchain.prototype.spentFromTxo` (src/blockchain.js lines 196-198):
SpentIndex point lookup keyed by the txo's (txId, vout). -/
def spentFromTxo (db : DB) (txo : TxoRow) : Option SpentRow :=
  getA (txo.txId, txo.vout) db.spentIndex

/-- JS `txIds[k] = true` on the result-set object: insert the id if absent
(re-assignment keeps the original position). -/
def setInsert (k : Nat) (s : List Nat) : List Nat :=
  if k ∈ s then s else s ++ [k]

/-- The success-path result set of `transactionIdsByScriptId` for a txo map
and a (total) spend lookup: first every spender's txId (first for-loop,
src/blockchain.js lines 222-227), then every txo's creating txId (second
for-loop, lines 229-232). -/
def txIdSet (txos : List (String × TxoRow)) (sg : TxoRow → Option SpentRow) : List Nat :=
  let fromSpents := txos.foldl
    (fun acc kv =>
      match sg kv.2 with
      | none => acc
      | some sp => setInsert sp.txId acc)
    []
  txos.foldl (fun acc kv => setInsert kv.2.txId acc) fromSpents

/-- `Blockchain.prototype.transactionIdsByScriptId` (src/blockchain.js
lines 206-237) over its two collaborator lookups: the txo map produced by
`txosByScriptId` (or its failure) and the per-txo `spentFromTxo` store
read (which can fail with a store ReadError); the spend lookups run as a
fail-fast parallel group. -/
def transactionIdsByScriptIdG (txosRes : Except String (List (String × TxoRow)))
    (spentGet : TxoRow → Except String (Option SpentRow)) : Except String (List Nat) :=
  match txosRes with
  | .error e => .error e
  | .ok txos =>
    match parallelE (fun kv => spentGet kv.2) txos with
    | .error e => .error e
    | .ok spents =>
      let txIds := (txos.zip spents).foldl
        (fun acc p =>
          match p.2 with
          | none => acc
          | some sp => setInsert sp.txId acc)
        []
      let txIds := txos.foldl (fun acc kv => setInsert kv.2.txId acc) txIds
      .ok txIds

/-- The repository composition of `transactionIdsByScriptId`: the in-store
lookups never fail in the store model, so both collaborators are total. -/
def transactionIdsByScriptId (db : DB) (scId : Nat) (height : Int) :
    Except String (List Nat) :=
  transactionIdsByScriptIdG (.ok (txosByScriptId db scId height))
    (fun txo => .ok (spentFromTxo db txo))

/-! Concrete example data used to instantiate the theorems. -/

/-- A coinbase transaction creating one output. -/
def tx1 : Tx := ⟨6, [⟨true, 0, 0⟩], [⟨1, 50, 0⟩], 100⟩

/-- A transaction spending the pre-existing output (5,0) of value 100 into
an output of value 90: fee 10 over vsize 10, fee rate 1. -/
def tx2 : Tx := ⟨7, [⟨false, 5, 0⟩], [⟨2, 90, 0⟩], 10⟩

/-- A block of two transactions at height 1 on top of block 9 (height 0). -/
def b1 : Block := ⟨10, 1, 9, 300, [tx1, tx2]⟩

/-- The pre-connect database: tip at block 9 / height 0, one indexed
transaction 5 with its unspent output (5,0) of value 100, and the fee row
of height 0. -/
def db0 : DB :=
  ⟨some ⟨9, 0⟩, [(5, 0)], [((5, 0), 100)], [], [], [(0, ⟨⟨0, 0, 0⟩, 100⟩)]⟩

/-- A remote node serving exactly block `b1`. -/
def fetch1 : Nat → Option Block := fun i => if i = 10 then some b1 else none

/-- A header fetch that always succeeds. -/
def hdr1 : Nat → Bool := fun _ => true

/-- A non-coinbase transaction spending the nonexistent output (99,0). -/
def tx3 : Tx := ⟨8, [⟨false, 99, 0⟩], [], 10⟩

/-- A block whose only transaction spends an output absent from TxoIndex. -/
def b2 : Block := ⟨11, 2, 10, 200, [tx3]⟩

/-- A remote node serving exactly block `b2`. -/
def fetch2 : Nat → Option Block := fun i => if i = 11 then some b2 else none

/-- A database whose ScriptIndex holds one output of script 7 created at
height 0xffffffff, the exclusive upper bound of the script range scan. -/
def dbEdge : DB := ⟨none, [], [], [], [(⟨7, 4294967295, 3, 1⟩, ())], []⟩

/-- Ascending (height, txId, vout) order on result rows. -/
def rowAsc (r1 r2 : TxoRow) : Prop :=
  r1.height < r2.height ∨ (r1.height = r2.height ∧
    (r1.txId < r2.txId ∨ (r1.txId = r2.txId ∧ r1.vout < r2.vout)))

instance (r1 r2 : TxoRow) : Decidable (rowAsc r1 r2) := by
  unfold rowAsc
  infer_instance

/-- A database whose sorted ScriptIndex holds outputs of three scripts;
script 2 has outputs at heights 5 and 7. -/
def dbQ : DB :=
  ⟨none, [], [], [],
   [(⟨1, 0, 4, 0⟩, ()), (⟨2, 5, 4, 0⟩, ()), (⟨2, 7, 3, 1⟩, ()), (⟨3, 2, 9, 0⟩, ())],
   []⟩

/-- Whether an `Except` result is a failure. -/
def isErr {β : Type} : Except String β → Bool
  | .error _ => true
  | .ok _ => false

/-! Helper lemmas. -/

theorem applyOp_feeIndex (db : DB) (op : Op) (h : op.isPutFee = false) :
    (applyOp db op).feeIndex = db.feeIndex := by
  cases op <;> simp_all [applyOp, Op.isPutFee]

theorem applyBatch_feeIndex (ops : List Op) :
    ∀ db : DB, (∀ op ∈ ops, op.isPutFee = false) →
      (applyBatch db ops).feeIndex = db.feeIndex := by
  induction ops with
  | nil => intro db _; rfl
  | cons op rest ih =>
    intro db h
    have h1 : op.isPutFee = false := h op (List.mem_cons_self op rest)
    have h2 : ∀ o ∈ rest, o.isPutFee = false :=
      fun o ho => h o (List.mem_cons_of_mem op ho)
    calc (applyBatch db (op :: rest)).feeIndex
        = (applyBatch (applyOp db op) rest).feeIndex := rfl
      _ = (applyOp db op).feeIndex := ih (applyOp db op) h2
      _ = db.feeIndex := applyOp_feeIndex db op h1

theorem txConnectOps_no_putFee (height : Int) (tx : Tx) :
    ∀ op ∈ txConnectOps height tx, op.isPutFee = false := by
  intro op hop
  simp only [txConnectOps, List.mem_append, List.mem_filterMap, List.mem_flatMap,
    List.mem_cons, List.not_mem_nil, or_false] at hop
  rcases hop with ((⟨p, _, hp⟩ | ⟨o, _, ho⟩) | rfl)
  · by_cases hc : p.2.coinbase
    · simp [hc] at hp
    · simp [hc] at hp
      subst hp
      rfl
  · rcases ho with rfl | rfl <;> rfl
  · rfl

theorem connectBatch_no_putFee (blockId : Nat) (b : Block) :
    ∀ op ∈ connectBatch blockId b, op.isPutFee = false := by
  intro op hop
  simp only [connectBatch, List.mem_append, List.mem_flatMap, List.mem_cons,
    List.not_mem_nil, or_false] at hop
  rcases hop with ⟨tx, _, hop⟩ | rfl
  · exact txConnectOps_no_putFee b.height tx op hop
  · rfl

theorem txDisconnectOps_all_del (height : Int) (tx : Tx) :
    ∀ op ∈ txDisconnectOps height tx, op.isDel = true := by
  intro op hop
  simp only [txDisconnectOps, List.mem_append, List.mem_filterMap, List.mem_flatMap,
    List.mem_cons, List.not_mem_nil, or_false] at hop
  rcases hop with ((⟨i, _, hi⟩ | ⟨p, _, hp⟩) | rfl)
  · by_cases hc : i.coinbase
    · simp [hc] at hi
    · simp [hc] at hi
      subst hi
      rfl
  · rcases hp with rfl | rfl <;> rfl
  · rfl

theorem disconnectBatch_no_putFee (b : Block) :
    ∀ op ∈ disconnectBatch b, op.isPutFee = false := by
  intro op hop
  simp only [disconnectBatch, List.mem_append, List.mem_flatMap, List.mem_cons,
    List.not_mem_nil, or_false] at hop
  rcases hop with ⟨tx, _, hop⟩ | rfl
  · have := txDisconnectOps_all_del b.height tx op hop
    cases op <;> simp_all [Op.isDel, Op.isPutFee]
  · rfl

theorem disconnectBatch_puts (b : Block) :
    (disconnectBatch b).filter (fun op => !op.isDel) =
      [.putTip ⟨b.previousblockhash, b.height⟩] := by
  rw [disconnectBatch, List.filter_append]
  have h1 : (b.transactions.flatMap (txDisconnectOps b.height)).filter
      (fun op => !op.isDel) = [] := by
    rw [List.filter_eq_nil_iff]
    intro op hop
    simp only [List.mem_flatMap] at hop
    obtain ⟨tx, _, hop⟩ := hop
    simp [txDisconnectOps_all_del b.height tx op hop]
  rw [h1]
  rfl

theorem disconnect_events (fetch : Nat → Option Block) (blockId : Nat) (db : DB) :
    (disconnect fetch blockId db).events = [] := by
  unfold disconnect
  cases fetch blockId <;> rfl

theorem disconnect_feeIndex (fetch : Nat → Option Block) (blockId : Nat) (db : DB) :
    (disconnect fetch blockId db).db.feeIndex = db.feeIndex := by
  unfold disconnect
  cases h : fetch blockId with
  | none => rfl
  | some b => exact applyBatch_feeIndex _ db (disconnectBatch_no_putFee b)

/-! Claim theorems. -/

/-- Claim C9: the `height` argument of `connect(blockId, height)` has no
influence on the result: `let { height, transactions } = block` shadows the
parameter, so every index write, the Tip write, the FeeIndex write and
every notification use the fetched block's height. -/
theorem c9_height_parameter_ignored (fetch : Nat → Option Block) (hdr : Nat → Bool)
    (blockId : Nat) (h1 h2 : Int) (db : DB) :
    connect fetch hdr blockId h1 db = connect fetch hdr blockId h2 db := rfl

/-- Claim C1 (code bug): connecting block `b1` (height 1, parent block 9 at
height 0) and then disconnecting it removes every TxIndex, TxoIndex,
SpentIndex and ScriptIndex entry the connect introduced and restores the
tip blockId, but the written tip is `{ previousblockhash, height }` with
the DISCONNECTED block's height: the tip becomes `{9, 1}`, not the
previous `{9, 0}`, contradicting the claimed restoration of T and the
spec's `{previousBlockId, heightOfPreviousBlock}`. -/
theorem c1_roundtrip_tip_keeps_height :
    (connect fetch1 hdr1 10 1 db0).err = none ∧
    db0.tip = some ⟨9, 0⟩ ∧
    (disconnect fetch1 10 (connect fetch1 hdr1 10 1 db0).db).db.txIndex = db0.txIndex ∧
    (disconnect fetch1 10 (connect fetch1 hdr1 10 1 db0).db).db.txoIndex = db0.txoIndex ∧
    (disconnect fetch1 10 (connect fetch1 hdr1 10 1 db0).db).db.spentIndex = db0.spentIndex ∧
    (disconnect fetch1 10 (connect fetch1 hdr1 10 1 db0).db).db.scIndex = db0.scIndex ∧
    (disconnect fetch1 10 (connect fetch1 hdr1 10 1 db0).db).db.tip = some ⟨9, 1⟩ := by
  decide

/-- Claim C7 counterexample: after `Connect(b1)` then `Disconnect(b1)`, no
block at height 1 is connected any more (every index entry of `b1` is
gone, the tip blockId is back at block 9), yet `FeeIndex[1]` still holds
the fee row written by the connect — a FeeIndex entry at a height that is
not connected. -/
theorem c7_cx_stale_feeIndex_after_disconnect :
    (disconnect fetch1 10 (connect fetch1 hdr1 10 1 db0).db).err = none ∧
    (disconnect fetch1 10 (connect fetch1 hdr1 10 1 db0).db).db.txIndex = [(5, 0)] ∧
    (disconnect fetch1 10 (connect fetch1 hdr1 10 1 db0).db).db.scIndex = [] ∧
    (disconnect fetch1 10 (connect fetch1 hdr1 10 1 db0).db).db.tip = some ⟨9, 1⟩ ∧
    getA (1 : Int) (disconnect fetch1 10 (connect fetch1 hdr1 10 1 db0).db).db.feeIndex
      = some ⟨⟨0, 1, 1⟩, 300⟩ := by
  decide

/-- Claim C5 counterexample: `dbEdge` holds an output of scriptId 7 created
at height 0xffffffff = 4294967295, which satisfies height greater or equal
0, yet `TxosByScriptId(7, 0)` returns the empty map, because the scan's
exclusive `lt` bound is `(scId, 0xffffffff, ZERO64, 0)`. -/
theorem c5_cx_boundary_height_excluded :
    (⟨7, 4294967295, 3, 1⟩, ()) ∈ dbEdge.scIndex ∧
    ((0 : Int) ≤ 4294967295) ∧
    txosByScriptId dbEdge 7 0 = [] := by
  decide

/-- Claim C8: `Disconnect` emits no notification and leaves FeeIndex
untouched; its batch consists of deletions only, except for the single Tip
write `{ blockId: previousblockhash, height }`, and that batch is exactly
what is committed. -/
theorem c8_disconnect_frame (fetch : Nat → Option Block) (blockId : Nat)
    (db : DB) (b : Block) (hb : fetch blockId = some b) :
    (disconnect fetch blockId db).events = [] ∧
    (disconnect fetch blockId db).db.feeIndex = db.feeIndex ∧
    (disconnectBatch b).filter (fun op => !op.isDel) =
      [.putTip ⟨b.previousblockhash, b.height⟩] ∧
    (disconnect fetch blockId db).db = applyBatch db (disconnectBatch b) :=
  ⟨disconnect_events fetch blockId db, disconnect_feeIndex fetch blockId db,
   disconnectBatch_puts b, by simp [disconnect, hb]⟩

/-- Witness for C8 at the concrete block `b1` over `db0`. -/
theorem c8_disconnect_frame_witness :
    fetch1 10 = some b1 ∧
    ((disconnect fetch1 10 db0).events = [] ∧
     (disconnect fetch1 10 db0).db.feeIndex = db0.feeIndex ∧
     (disconnectBatch b1).filter (fun op => !op.isDel) =
       [.putTip ⟨b1.previousblockhash, b1.height⟩] ∧
     (disconnect fetch1 10 db0).db = applyBatch db0 (disconnectBatch b1)) :=
  ⟨by decide, c8_disconnect_frame fetch1 10 db0 b1 (by decide)⟩

theorem sumInputValues_error (txo : List ((Nat × Nat) × Int)) :
    ∀ (ins : List Input) (i : Input), i ∈ ins → i.coinbase = false →
      getA (i.prevTxId, i.vout) txo = none →
      ∃ e, sumInputValues txo ins = .error e := by
  intro ins
  induction ins with
  | nil => intro i hi _ _; exact absurd hi (List.not_mem_nil i)
  | cons j rest ih =>
    intro i hi hcb hget
    rcases List.mem_cons.mp hi with rfl | hi2
    · exact ⟨"Missing " ++ txoKeyStr i.prevTxId i.vout,
        by simp [sumInputValues, hcb, hget]⟩
    · by_cases hjc : j.coinbase
      · obtain ⟨e, he⟩ := ih i hi2 hcb hget
        exact ⟨e, by simp [sumInputValues, hjc, he]⟩
      · cases hg : getA (j.prevTxId, j.vout) txo with
        | none => exact ⟨"Missing " ++ txoKeyStr j.prevTxId j.vout,
            by simp [sumInputValues, hjc, hg]⟩
        | some v =>
          obtain ⟨e, he⟩ := ih i hi2 hcb hget
          exact ⟨e, by simp [sumInputValues, hjc, hg, he]⟩

theorem txFeeRate_error (txo : List ((Nat × Nat) × Int)) (tx : Tx) (i : Input)
    (hnc : tx.ins.any (fun j => j.coinbase) = false)
    (hi : i ∈ tx.ins) (hget : getA (i.prevTxId, i.vout) txo = none) :
    ∃ e, txFeeRate txo tx = .error e := by
  have hcb : i.coinbase = false := by
    have := List.any_eq_false.mp hnc i hi
    simpa using this
  obtain ⟨e, he⟩ := sumInputValues_error txo tx.ins i hi hcb hget
  exact ⟨e, by simp [txFeeRate, hnc, he]⟩

theorem parallelE_error {α β : Type} (f : α → Except String β) :
    ∀ (l : List α) (a : α), a ∈ l → (∃ e, f a = .error e) →
      ∃ e, parallelE f l = .error e := by
  intro l
  induction l with
  | nil => intro a ha _; exact absurd ha (List.not_mem_nil a)
  | cons b rest ih =>
    intro a ha hfa
    cases hfb : f b with
    | error e => exact ⟨e, by simp [parallelE, hfb]⟩
    | ok v =>
      rcases List.mem_cons.mp ha with rfl | ha2
      · obtain ⟨e, he⟩ := hfa
        rw [hfb] at he
        cases he
      · obtain ⟨e, he⟩ := ih a ha2 hfa
        exact ⟨e, by simp [parallelE, hfb, he]⟩

/-- Claim C4: if some non-coinbase input of a block transaction has no
TxoIndex entry (resolved against the state after the first-phase commit),
the fee derivation errors and the whole `connect` call fails, but the
returned state is exactly the committed first-phase batch — every
TxIndex/TxoIndex/ScriptIndex/SpentIndex/Tip write persists — and FeeIndex
is untouched. -/
theorem c4_missing_output_aborts (fetch : Nat → Option Block) (hdr : Nat → Bool)
    (blockId : Nat) (h : Int) (db : DB) (b : Block) (tx : Tx) (i : Input)
    (hb : fetch blockId = some b)
    (htx : tx ∈ b.transactions)
    (hnc : tx.ins.any (fun j => j.coinbase) = false)
    (hi : i ∈ tx.ins)
    (hget : getA (i.prevTxId, i.vout)
      (applyBatch db (connectBatch blockId b)).txoIndex = none) :
    (connect fetch hdr blockId h db).err.isSome = true ∧
    (connect fetch hdr blockId h db).db = applyBatch db (connectBatch blockId b) ∧
    (connect fetch hdr blockId h db).db.feeIndex = db.feeIndex := by
  obtain ⟨e2, he2⟩ :=
    parallelE_error (txFeeRate (applyBatch db (connectBatch blockId b)).txoIndex)
      b.transactions tx htx
      (txFeeRate_error (applyBatch db (connectBatch blockId b)).txoIndex tx i hnc hi hget)
  refine ⟨?_, ?_, ?_⟩ <;>
    simp [connect, hb, connect2ndOrder, feeRatesOf, he2,
      applyBatch_feeIndex (connectBatch blockId b) db (connectBatch_no_putFee blockId b)]

/-- Witness for C4: block `b2` spends the nonexistent output (99, 0). -/
theorem c4_missing_output_aborts_witness :
    fetch2 11 = some b2 ∧ tx3 ∈ b2.transactions ∧
    tx3.ins.any (fun j => j.coinbase) = false ∧
    (⟨false, 99, 0⟩ : Input) ∈ tx3.ins ∧
    getA (99, 0) (applyBatch db0 (connectBatch 11 b2)).txoIndex = none ∧
    ((connect fetch2 hdr1 11 2 db0).err.isSome = true ∧
     (connect fetch2 hdr1 11 2 db0).db = applyBatch db0 (connectBatch 11 b2) ∧
     (connect fetch2 hdr1 11 2 db0).db.feeIndex = db0.feeIndex) :=
  ⟨by decide, by decide, by decide, by decide, by decide,
   c4_missing_output_aborts fetch2 hdr1 11 2 db0 b2 tx3 ⟨false, 99, 0⟩
     (by decide) (by decide) (by decide) (by decide) (by decide)⟩

theorem sumInputValues_ok (txo : List ((Nat × Nat) × Int)) :
    ∀ ins : List Input, (∀ i ∈ ins, i.coinbase = false) →
      (∀ i ∈ ins, (getA (i.prevTxId, i.vout) txo).isSome = true) →
      sumInputValues txo ins =
        .ok ((ins.map (fun i => (getA (i.prevTxId, i.vout) txo).getD 0)).sum) := by
  intro ins
  induction ins with
  | nil => intro _ _; rfl
  | cons j rest ih =>
    intro hcb hsome
    have hjc : j.coinbase = false := hcb j (List.mem_cons_self j rest)
    have hjs := hsome j (List.mem_cons_self j rest)
    cases hg : getA (j.prevTxId, j.vout) txo with
    | none => rw [hg] at hjs; cases hjs
    | some v =>
      have hrest := ih (fun i hi => hcb i (List.mem_cons_of_mem j hi))
        (fun i hi => hsome i (List.mem_cons_of_mem j hi))
      simp [sumInputValues, hjc, hg, hrest]

/-- Claim C3: a transaction with any coinbase input contributes fee rate 0
regardless of its outputs and of TxoIndex; any other transaction whose
inputs all resolve contributes `floor((sum of resolved input values - sum
of declared output values) / vsize)`, the (possibly negative) value as-is. -/
theorem c3_coinbase_zero_and_fee_formula (txo : List ((Nat × Nat) × Int))
    (tx tx' : Tx)
    (hcb : tx.ins.any (fun i => i.coinbase) = true)
    (hncb : tx'.ins.any (fun i => i.coinbase) = false)
    (hres : ∀ i ∈ tx'.ins, (getA (i.prevTxId, i.vout) txo).isSome = true) :
    txFeeRate txo tx = .ok 0 ∧
    txFeeRate txo tx' =
      .ok (Int.fdiv
        ((tx'.ins.map (fun i => (getA (i.prevTxId, i.vout) txo).getD 0)).sum -
          (tx'.outs.map (fun o => o.value)).sum)
        tx'.vsize) := by
  constructor
  · simp [txFeeRate, hcb]
  · have hcb2 : ∀ i ∈ tx'.ins, i.coinbase = false := by
      intro i hi
      have := List.any_eq_false.mp hncb i hi
      simpa using this
    simp [txFeeRate, hncb, sumInputValues_ok txo tx'.ins hcb2 hres, outAccum]

/-- Witness for C3: the coinbase transaction `tx1` contributes 0 although
it has an output of value 50; `tx2` resolves (5,0) to 100, declares 90
out, and contributes floor(10/10) = 1. -/
theorem c3_coinbase_zero_and_fee_formula_witness :
    tx1.ins.any (fun i => i.coinbase) = true ∧
    tx2.ins.any (fun i => i.coinbase) = false ∧
    (∀ i ∈ tx2.ins, (getA (i.prevTxId, i.vout) db0.txoIndex).isSome = true) ∧
    (txFeeRate db0.txoIndex tx1 = .ok 0 ∧
     txFeeRate db0.txoIndex tx2 =
       .ok (Int.fdiv
         ((tx2.ins.map (fun i => (getA (i.prevTxId, i.vout) db0.txoIndex).getD 0)).sum -
           (tx2.outs.map (fun o => o.value)).sum)
         tx2.vsize)) :=
  ⟨by decide, by decide, by decide,
   c3_coinbase_zero_and_fee_formula db0.txoIndex tx1 tx2
     (by decide) (by decide) (by decide)⟩

theorem insFee_perm (x : Int) : ∀ l : List Int, (insFee x l).Perm (x :: l) := by
  intro l
  induction l with
  | nil => exact List.Perm.refl [x]
  | cons y l ih =>
    by_cases h : x ≤ y
    · rw [insFee, if_pos h]
    · rw [insFee, if_neg h]
      exact (ih.cons y).trans (List.Perm.swap x y l)

theorem sortFees_perm : ∀ l : List Int, (sortFees l).Perm l := by
  intro l
  induction l with
  | nil => exact List.Perm.refl []
  | cons x l ih => exact (insFee_perm x (sortFees l)).trans (ih.cons x)

theorem insFee_sorted (x : Int) :
    ∀ l : List Int, l.Pairwise (fun a c => a ≤ c) →
      (insFee x l).Pairwise (fun a c => a ≤ c) := by
  intro l
  induction l with
  | nil => intro _; simp [insFee]
  | cons y l ih =>
    intro hp
    rcases List.pairwise_cons.mp hp with ⟨hy, hl⟩
    by_cases h : x ≤ y
    · rw [insFee, if_pos h]
      refine List.pairwise_cons.mpr ⟨?_, hp⟩
      intro a ha
      rcases List.mem_cons.mp ha with rfl | ha2
      · exact h
      · exact le_trans h (hy a ha2)
    · rw [insFee, if_neg h]
      refine List.pairwise_cons.mpr ⟨?_, ih hl⟩
      intro a ha
      have hmem : a = x ∨ a ∈ l :=
        List.mem_cons.mp ((insFee_perm x l).mem_iff.mp ha)
      rcases hmem with rfl | ha2
      · omega
      · exact hy a ha2

theorem sortFees_sorted : ∀ l : List Int, (sortFees l).Pairwise (fun a c => a ≤ c) := by
  intro l
  induction l with
  | nil => exact List.Pairwise.nil
  | cons x l ih => exact insFee_sorted x (sortFees l) ih

/-- Claim C2: the committed fee summary is `box` of the ascending-sorted
sample; `box` selects ranked quartiles at indices floor(n/4), floor(n/2)
and floor(n/2)+floor(n/4), the empty sample gives all-zero quartiles, and
the sample [1..8] gives q1 = 3, median = 5, q3 = 7. -/
theorem c2_quartiles (b : Block) (db : DB) (rates : List Int)
    (hr : feeRatesOf db b = .ok rates) (l : List Int) (hl : l ≠ []) :
    (connect2ndOrder b db).db.feeIndex =
      putA intLt b.height ⟨box (sortFees rates), b.size⟩ db.feeIndex ∧
    (sortFees rates).Pairwise (fun a c => a ≤ c) ∧
    (sortFees rates).Perm rates ∧
    box l = ⟨l.getD (l.length / 4) 0, l.getD (l.length / 2) 0,
      l.getD (l.length / 2 + l.length / 4) 0⟩ ∧
    box [] = ⟨0, 0, 0⟩ ∧
    box [1, 2, 3, 4, 5, 6, 7, 8] = ⟨3, 5, 7⟩ := by
  refine ⟨?_, sortFees_sorted rates, sortFees_perm rates, ?_, by decide, by decide⟩
  · simp [connect2ndOrder, hr, applyBatch, applyOp]
  · have hne : ¬(l.length = 0) := fun h => hl (List.length_eq_zero.mp h)
    simp [box, hne]

/-- Witness for C2 at block `b1` over `db0`: the sample is [0, 1]. -/
theorem c2_quartiles_witness :
    feeRatesOf db0 b1 = .ok [0, 1] ∧
    ([5] : List Int) ≠ [] ∧
    ((connect2ndOrder b1 db0).db.feeIndex =
       putA intLt b1.height ⟨box (sortFees [0, 1]), b1.size⟩ db0.feeIndex ∧
     (sortFees [0, 1]).Pairwise (fun a c => a ≤ c) ∧
     (sortFees [0, 1]).Perm [0, 1] ∧
     box [5] = ⟨List.getD [5] (List.length [5] / 4) 0,
       List.getD [5] (List.length [5] / 2) 0,
       List.getD [5] (List.length [5] / 2 + List.length [5] / 4) 0⟩ ∧
     box [] = ⟨0, 0, 0⟩ ∧
     box [1, 2, 3, 4, 5, 6, 7, 8] = ⟨3, 5, 7⟩) :=
  ⟨rfl, by decide, c2_quartiles b1 db0 [0, 1] rfl [5] (by decide)⟩

theorem inRange_fee (g k : Int) : inRange intLt (some g) none k = decide (g ≤ k) := by
  simp only [inRange, geB, intLt, Bool.and_true]
  rw [Bool.eq_iff_iff]
  simp only [Bool.or_eq_true, decide_eq_true_eq]
  omega

/-- Claim C10: `fees` is only well-defined with a Tip present — when Tip is
absent the unguarded `result.height` dereference escapes the callback
error protocol (modelled `none`); with Tip = t it returns exactly the
FeeIndex rows of height greater or equal `t.height - n`, in index order. -/
theorem c10_fees (dbA dbB : DB) (n : Int) (t : TipRow)
    (hA : dbA.tip = none) (hB : dbB.tip = some t) :
    fees dbA n = none ∧
    fees dbB n =
      some ((dbB.feeIndex.filter (fun kv => decide (t.height - n ≤ kv.1))).map
        (fun kv => FeeResult.mk kv.1 kv.2.fees kv.2.size)) := by
  constructor
  · simp [fees, hA]
  · simp only [fees, hB]
    have : dbB.feeIndex.filter (fun kv => inRange intLt (some (t.height - n)) none kv.1) =
        dbB.feeIndex.filter (fun kv => decide (t.height - n ≤ kv.1)) :=
      List.filter_congr (fun kv _ => inRange_fee (t.height - n) kv.1)
    rw [this]

/-- Witness for C10: `dbEdge` has no tip and `fees` gives nothing; `db0`
has tip height 0 and `fees db0 2` returns its single fee row (height 0
is greater or equal -2). -/
theorem c10_fees_witness :
    dbEdge.tip = none ∧ db0.tip = some ⟨9, 0⟩ ∧
    (fees dbEdge 2 = none ∧
     fees db0 2 =
       some ((db0.feeIndex.filter (fun kv => decide ((0 : Int) - 2 ≤ kv.1))).map
         (fun kv => FeeResult.mk kv.1 kv.2.fees kv.2.size))) :=
  ⟨by decide, by decide, c10_fees dbEdge db0 2 ⟨9, 0⟩ (by decide) (by decide)⟩

theorem connect_db (fetch : Nat → Option Block) (hdr : Nat → Bool) (blockId : Nat)
    (h : Int) (db : DB) (b : Block) (hb : fetch blockId = some b) :
    (connect fetch hdr blockId h db).db =
      (connect2ndOrder b (applyBatch db (connectBatch blockId b))).db := by
  simp only [connect, hb]

theorem connect_err (fetch : Nat → Option Block) (hdr : Nat → Bool) (blockId : Nat)
    (h : Int) (db : DB) (b : Block) (hb : fetch blockId = some b) :
    (connect fetch hdr blockId h db).err =
      (connect2ndOrder b (applyBatch db (connectBatch blockId b))).err := by
  simp only [connect, hb]

theorem connect2ndOrder_ok (b : Block) (db : DB) (rates : List Int)
    (hr : feeRatesOf db b = .ok rates) :
    connect2ndOrder b db =
      ⟨applyBatch db [.putFee b.height ⟨box (sortFees rates), b.size⟩], [], none⟩ := by
  simp only [connect2ndOrder, hr]

theorem connect2ndOrder_err (b : Block) (db : DB) (e : String)
    (hr : feeRatesOf db b = .error e) :
    connect2ndOrder b db = ⟨db, [], some e⟩ := by
  simp only [connect2ndOrder, hr]

theorem applyBatch_putFee (db : DB) (h : Int) (v : FeeRow) :
    (applyBatch db [Op.putFee h v]).feeIndex = putA intLt h v db.feeIndex := rfl

theorem intLt_irrefl (a : Int) : intLt a a = false := by
  simp [intLt]

theorem intLt_asymm (a c : Int) : intLt a c = true → intLt c a = true → False := by
  simp only [intLt, decide_eq_true_eq]
  omega

theorem filter_putA {κ α : Type} [DecidableEq κ] (lt : κ → κ → Bool)
    (hirr : ∀ a, lt a a = false)
    (hasym : ∀ a c, lt a c = true → lt c a = true → False)
    (k : κ) (v : α) :
    ∀ l : List (κ × α), l.Pairwise (fun x y => lt x.1 y.1 = true) →
      (putA lt k v l).filter (fun kv => decide (kv.1 = k)) = [(k, v)] := by
  intro l
  induction l with
  | nil => intro _; simp [putA]
  | cons kv rest ih =>
    intro hp
    rcases List.pairwise_cons.mp hp with ⟨hhead, htail⟩
    by_cases he : k = kv.1
    · rw [putA, if_pos he]
      have hrest : rest.filter (fun p => decide (p.1 = k)) = [] := by
        rw [List.filter_eq_nil_iff]
        intro p hpmem
        simp only [decide_eq_true_eq]
        intro hpk
        have := hhead p hpmem
        rw [hpk, ← he] at this
        rw [hirr k] at this
        cases this
      simp [List.filter_cons, hrest]
    · by_cases hlt : lt k kv.1 = true
      · rw [putA, if_neg he, if_pos hlt]
        have hkv : ¬(kv.1 = k) := fun hEq => he hEq.symm
        have hrest : rest.filter (fun p => decide (p.1 = k)) = [] := by
          rw [List.filter_eq_nil_iff]
          intro p hpmem
          simp only [decide_eq_true_eq]
          intro hpk
          have h2 := hhead p hpmem
          rw [hpk] at h2
          exact hasym k kv.1 hlt h2
        simp [List.filter_cons, hkv, hrest]
      · rw [putA, if_neg he, if_neg hlt]
        have hkv : ¬(kv.1 = k) := fun hEq => he hEq.symm
        simp [List.filter_cons, hkv, ih htail]

/-- Claim C7 (amended): a successful `Connect` leaves exactly one FeeIndex
entry at the connected block's height (the put either inserts or
overwrites in the key-sorted index), and `Disconnect` leaves FeeIndex
entirely unchanged — so a height that is no longer connected can retain a
stale entry, as the counterexample shows. -/
theorem c7_feeIndex_per_height (fetch : Nat → Option Block) (hdr : Nat → Bool)
    (blockId : Nat) (h : Int) (db db2 : DB) (b : Block)
    (hb : fetch blockId = some b)
    (hsort : db.feeIndex.Pairwise (fun x y => intLt x.1 y.1 = true))
    (hok : (connect fetch hdr blockId h db).err = none) :
    ((connect fetch hdr blockId h db).db.feeIndex.filter
      (fun kv => decide (kv.1 = b.height))).length = 1 ∧
    (disconnect fetch blockId db2).db.feeIndex = db2.feeIndex := by
  refine ⟨?_, disconnect_feeIndex fetch blockId db2⟩
  have hfee : (applyBatch db (connectBatch blockId b)).feeIndex = db.feeIndex :=
    applyBatch_feeIndex (connectBatch blockId b) db (connectBatch_no_putFee blockId b)
  cases hr : feeRatesOf (applyBatch db (connectBatch blockId b)) b with
  | error e =>
    exfalso
    rw [connect_err fetch hdr blockId h db b hb, connect2ndOrder_err _ _ e hr] at hok
    cases hok
  | ok rates =>
    have hfi : (connect fetch hdr blockId h db).db.feeIndex =
        putA intLt b.height ⟨box (sortFees rates), b.size⟩ db.feeIndex := by
      rw [connect_db fetch hdr blockId h db b hb, connect2ndOrder_ok _ _ rates hr]
      show (applyBatch (applyBatch db (connectBatch blockId b))
        [Op.putFee b.height ⟨box (sortFees rates), b.size⟩]).feeIndex = _
      rw [applyBatch_putFee, hfee]
    rw [hfi, filter_putA intLt intLt_irrefl intLt_asymm b.height
      ⟨box (sortFees rates), b.size⟩ db.feeIndex hsort]
    rfl

/-- Witness for C7 (amended) at block `b1` over `db0`. -/
theorem c7_feeIndex_per_height_witness :
    fetch1 10 = some b1 ∧
    db0.feeIndex.Pairwise (fun x y => intLt x.1 y.1 = true) ∧
    (connect fetch1 hdr1 10 1 db0).err = none ∧
    (((connect fetch1 hdr1 10 1 db0).db.feeIndex.filter
        (fun kv => decide (kv.1 = b1.height))).length = 1 ∧
     (disconnect fetch1 10 dbEdge).db.feeIndex = dbEdge.feeIndex) :=
  ⟨by decide, by decide, by decide,
   c7_feeIndex_per_height fetch1 hdr1 10 1 db0 dbEdge b1
     (by decide) (by decide) (by decide)⟩

theorem inRange_sc (S : Nat) (H : Int) (k : ScKey) :
    inRange scLt (some ⟨S, H, 0, 0⟩) (some ⟨S, 4294967295, 0, 0⟩) k =
      (decide (k.scId = S) && decide (H ≤ k.height) &&
        decide (k.height < 4294967295)) := by
  rcases k with ⟨s, hh, t, v⟩
  rw [Bool.eq_iff_iff]
  simp only [inRange, geB, scLt, Bool.or_eq_true, Bool.and_eq_true,
    decide_eq_true_eq, ScKey.mk.injEq]
  omega

theorem scanRange_eq (db : DB) (S : Nat) (H : Int) :
    scanRange db S H = db.scIndex.filter
      (fun kv => decide (kv.1.scId = S) && decide (H ≤ kv.1.height) &&
        decide (kv.1.height < 4294967295)) := by
  rw [scanRange]
  exact List.filter_congr (fun kv _ => inRange_sc S H kv.1)

theorem foldl_jsInsert {α : Type} (f : ScKey × Unit → String) (g : ScKey × Unit → α) :
    ∀ (l : List (ScKey × Unit)) (acc : List (String × α)),
      (acc.map (fun kv => kv.1) ++ l.map f).Nodup →
      l.foldl (fun m kv => jsInsert (f kv) (g kv) m) acc =
        acc ++ l.map (fun kv => (f kv, g kv)) := by
  intro l
  induction l with
  | nil => intro acc _; simp
  | cons kv rest ih =>
    intro acc hnd
    have hparts := List.nodup_append.mp hnd
    have hfind : acc.find? (fun p => decide (p.1 = f kv)) = none := by
      rw [List.find?_eq_none]
      intro p hp
      simp only [decide_eq_true_eq]
      intro hpk
      have hdisj := hparts.2.2
      exact hdisj (List.mem_map_of_mem (fun q => q.1) hp)
        (by rw [List.map_cons]; exact hpk ▸ List.mem_cons_self _ _)
    rw [List.foldl_cons,
      show jsInsert (f kv) (g kv) acc = acc ++ [(f kv, g kv)] from by
        simp [jsInsert, hfind],
      ih (acc ++ [(f kv, g kv)]) ?_]
    · simp
    · rw [List.map_append, List.append_assoc]
      simpa using hnd

theorem txosByScriptId_eq (db : DB) (S : Nat) (H : Int)
    (hnd : ((scanRange db S H).map
      (fun kv => txoKeyStr kv.1.txId kv.1.vout)).Nodup) :
    txosByScriptId db S H = (scanRange db S H).map
      (fun kv => (txoKeyStr kv.1.txId kv.1.vout,
        TxoRow.mk kv.1.txId kv.1.vout S kv.1.height)) := by
  rw [txosByScriptId]
  exact foldl_jsInsert (fun kv => txoKeyStr kv.1.txId kv.1.vout)
    (fun kv => TxoRow.mk kv.1.txId kv.1.vout S kv.1.height)
    (scanRange db S H) [] (by simpa using hnd)

/-- Claim C5 (amended): `TxosByScriptId(S, H)` returns exactly the outputs
with scriptId = S and H less or equal height STRICTLY BELOW 4294967295
(0xffffffff, the scan's exclusive upper bound — the claim's plain
"height greater or equal H" fails at that boundary height, see the
counterexample), keyed "txId:vout" with rows {txId, vout, scId, height},
in ascending (height, txId, vout) order, and nothing of any other
scriptId.  Hypotheses: the store keeps ScriptIndex sorted by its
composite key, and the matched outputs have pairwise distinct
"txId:vout" result keys (JS object assignment would otherwise merge
them). -/
theorem c5_txos_by_script (db : DB) (S : Nat) (H : Int)
    (hs : db.scIndex.Pairwise (fun x y => scLt x.1 y.1 = true))
    (hnd : ((scanRange db S H).map
      (fun kv => txoKeyStr kv.1.txId kv.1.vout)).Nodup) :
    txosByScriptId db S H = (scanRange db S H).map
      (fun kv => (txoKeyStr kv.1.txId kv.1.vout,
        TxoRow.mk kv.1.txId kv.1.vout S kv.1.height)) ∧
    scanRange db S H = db.scIndex.filter
      (fun kv => decide (kv.1.scId = S) && decide (H ≤ kv.1.height) &&
        decide (kv.1.height < 4294967295)) ∧
    ((txosByScriptId db S H).map (fun kv => kv.2)).Pairwise rowAsc := by
  refine ⟨txosByScriptId_eq db S H hnd, scanRange_eq db S H, ?_⟩
  rw [txosByScriptId_eq db S H hnd, List.map_map, List.pairwise_map]
  have hps : (scanRange db S H).Pairwise (fun x y => scLt x.1 y.1 = true) := by
    rw [scanRange]
    exact hs.filter _
  have hmem : ∀ kv ∈ scanRange db S H, kv.1.scId = S := by
    intro kv hkv
    rw [scanRange_eq] at hkv
    rcases List.mem_filter.mp hkv with ⟨_, hpred⟩
    simp only [Bool.and_eq_true, decide_eq_true_eq] at hpred
    exact hpred.1.1
  refine List.Pairwise.imp_of_mem ?_ hps
  intro a c ha hc hlt
  have haS := hmem a ha
  have hcS := hmem c hc
  simp only [scLt, Bool.or_eq_true, Bool.and_eq_true, decide_eq_true_eq] at hlt
  simp only [Function.comp, rowAsc]
  omega

/-- Witness for C5 (amended) at `dbQ` with scriptId 2 and minimum height 0. -/
theorem c5_txos_by_script_witness :
    dbQ.scIndex.Pairwise (fun x y => scLt x.1 y.1 = true) ∧
    ((scanRange dbQ 2 0).map (fun kv => txoKeyStr kv.1.txId kv.1.vout)).Nodup ∧
    (txosByScriptId dbQ 2 0 = (scanRange dbQ 2 0).map
       (fun kv => (txoKeyStr kv.1.txId kv.1.vout,
         TxoRow.mk kv.1.txId kv.1.vout 2 kv.1.height)) ∧
     scanRange dbQ 2 0 = dbQ.scIndex.filter
       (fun kv => decide (kv.1.scId = 2) && decide ((0 : Int) ≤ kv.1.height) &&
         decide (kv.1.height < 4294967295)) ∧
     ((txosByScriptId dbQ 2 0).map (fun kv => kv.2)).Pairwise rowAsc) :=
  ⟨by decide, by decide, c5_txos_by_script dbQ 2 0 (by decide) (by decide)⟩

theorem setInsert_mem (x k : Nat) (s : List Nat) :
    x ∈ setInsert k s ↔ x = k ∨ x ∈ s := by
  rw [setInsert]
  by_cases h : k ∈ s
  · rw [if_pos h]
    constructor
    · exact Or.inr
    · rintro (rfl | hx)
      · exact h
      · exact hx
  · rw [if_neg h]
    simp [or_comm]

theorem setInsert_nodup (k : Nat) (s : List Nat) (h : s.Nodup) :
    (setInsert k s).Nodup := by
  rw [setInsert]
  by_cases hk : k ∈ s
  · rwa [if_pos hk]
  · rw [if_neg hk]
    simp [List.nodup_append, h, hk]

theorem addSpenders_mem (sg : TxoRow → Option SpentRow) (x : Nat) :
    ∀ (txos : List (String × TxoRow)) (acc : List Nat),
      (x ∈ txos.foldl
        (fun acc kv =>
          match sg kv.2 with
          | none => acc
          | some sp => setInsert sp.txId acc)
        acc) ↔
      (x ∈ acc ∨ ∃ kv ∈ txos, ∃ sp, sg kv.2 = some sp ∧ sp.txId = x) := by
  intro txos
  induction txos with
  | nil => intro acc; simp
  | cons kv rest ih =>
    intro acc
    rw [List.foldl_cons]
    cases hsg : sg kv.2 with
    | none =>
      dsimp only
      rw [ih acc]
      constructor
      · rintro (h | ⟨kv2, hkv2, sp, hsp, hx⟩)
        · exact Or.inl h
        · exact Or.inr ⟨kv2, List.mem_cons_of_mem kv hkv2, sp, hsp, hx⟩
      · rintro (h | ⟨kv2, hkv2, sp, hsp, hx⟩)
        · exact Or.inl h
        · rcases List.mem_cons.mp hkv2 with rfl | h2
          · rw [hsg] at hsp
            cases hsp
          · exact Or.inr ⟨kv2, h2, sp, hsp, hx⟩
    | some sp0 =>
      dsimp only
      rw [ih (setInsert sp0.txId acc)]
      constructor
      · rintro (h | ⟨kv2, hkv2, sp, hsp, hx⟩)
        · rcases (setInsert_mem x sp0.txId acc).mp h with rfl | h2
          · exact Or.inr ⟨kv, List.mem_cons_self kv rest, sp0, hsg, rfl⟩
          · exact Or.inl h2
        · exact Or.inr ⟨kv2, List.mem_cons_of_mem kv hkv2, sp, hsp, hx⟩
      · rintro (h | ⟨kv2, hkv2, sp, hsp, hx⟩)
        · exact Or.inl ((setInsert_mem x sp0.txId acc).mpr (Or.inr h))
        · rcases List.mem_cons.mp hkv2 with rfl | h2
          · rw [hsg] at hsp
            injection hsp with hsp
            subst hsp
            exact Or.inl ((setInsert_mem x sp0.txId acc).mpr (Or.inl hx.symm))
          · exact Or.inr ⟨kv2, h2, sp, hsp, hx⟩

theorem addCreators_mem (x : Nat) :
    ∀ (txos : List (String × TxoRow)) (acc : List Nat),
      (x ∈ txos.foldl (fun acc kv => setInsert kv.2.txId acc) acc) ↔
      (x ∈ acc ∨ ∃ kv ∈ txos, kv.2.txId = x) := by
  intro txos
  induction txos with
  | nil => intro acc; simp
  | cons kv rest ih =>
    intro acc
    rw [List.foldl_cons, ih (setInsert kv.2.txId acc)]
    constructor
    · rintro (h | ⟨kv2, hkv2, hx⟩)
      · rcases (setInsert_mem x kv.2.txId acc).mp h with rfl | h2
        · exact Or.inr ⟨kv, List.mem_cons_self kv rest, rfl⟩
        · exact Or.inl h2
      · exact Or.inr ⟨kv2, List.mem_cons_of_mem kv hkv2, hx⟩
    · rintro (h | ⟨kv2, hkv2, hx⟩)
      · exact Or.inl ((setInsert_mem x kv.2.txId acc).mpr (Or.inr h))
      · rcases List.mem_cons.mp hkv2 with rfl | h2
        · exact Or.inl ((setInsert_mem x kv2.2.txId acc).mpr (Or.inl hx.symm))
        · exact Or.inr ⟨kv2, h2, hx⟩

theorem addSpenders_nodup (sg : TxoRow → Option SpentRow) :
    ∀ (txos : List (String × TxoRow)) (acc : List Nat), acc.Nodup →
      (txos.foldl
        (fun acc kv =>
          match sg kv.2 with
          | none => acc
          | some sp => setInsert sp.txId acc)
        acc).Nodup := by
  intro txos
  induction txos with
  | nil => intro acc h; exact h
  | cons kv rest ih =>
    intro acc h
    rw [List.foldl_cons]
    cases hsg : sg kv.2 with
    | none =>
      dsimp only
      exact ih acc h
    | some sp0 =>
      dsimp only
      exact ih (setInsert sp0.txId acc) (setInsert_nodup sp0.txId acc h)

theorem addCreators_nodup :
    ∀ (txos : List (String × TxoRow)) (acc : List Nat), acc.Nodup →
      (txos.foldl (fun acc kv => setInsert kv.2.txId acc) acc).Nodup := by
  intro txos
  induction txos with
  | nil => intro acc h; exact h
  | cons kv rest ih =>
    intro acc h
    rw [List.foldl_cons]
    exact ih (setInsert kv.2.txId acc) (setInsert_nodup kv.2.txId acc h)

theorem txIdSet_nodup (txos : List (String × TxoRow)) (sg : TxoRow → Option SpentRow) :
    (txIdSet txos sg).Nodup :=
  addCreators_nodup txos _ (addSpenders_nodup sg txos [] List.nodup_nil)

theorem txIdSet_mem (txos : List (String × TxoRow)) (sg : TxoRow → Option SpentRow)
    (x : Nat) :
    x ∈ txIdSet txos sg ↔
      (∃ kv ∈ txos, kv.2.txId = x) ∨
      (∃ kv ∈ txos, ∃ sp, sg kv.2 = some sp ∧ sp.txId = x) := by
  rw [txIdSet, addCreators_mem, addSpenders_mem]
  simp [or_comm]

theorem parallelE_ok_total (sg : TxoRow → Option SpentRow) :
    ∀ txos : List (String × TxoRow),
      parallelE (fun kv => (Except.ok (sg kv.2) : Except String (Option SpentRow))) txos =
        .ok (txos.map (fun kv => sg kv.2)) := by
  intro txos
  induction txos with
  | nil => rfl
  | cons kv rest ih => simp [parallelE, ih]

theorem zip_map_foldl_spenders (sg : TxoRow → Option SpentRow) :
    ∀ (txos : List (String × TxoRow)) (acc : List Nat),
      ((txos.zip (txos.map (fun kv => sg kv.2))).foldl
        (fun acc p =>
          match p.2 with
          | none => acc
          | some sp => setInsert sp.txId acc)
        acc) =
      (txos.foldl
        (fun acc kv =>
          match sg kv.2 with
          | none => acc
          | some sp => setInsert sp.txId acc)
        acc) := by
  intro txos
  induction txos with
  | nil => intro acc; rfl
  | cons kv rest ih => intro acc; simp only [List.map_cons, List.zip_cons_cons,
      List.foldl_cons, ih]

theorem transactionIdsByScriptIdG_ok (txos : List (String × TxoRow))
    (sg : TxoRow → Option SpentRow) :
    transactionIdsByScriptIdG (.ok txos) (fun t => .ok (sg t)) =
      .ok (txIdSet txos sg) := by
  rw [transactionIdsByScriptIdG]
  have hpe : parallelE (fun kv => (Except.ok (sg kv.2) : Except String (Option SpentRow)))
      txos = .ok (txos.map (fun kv => sg kv.2)) := parallelE_ok_total sg txos
  rw [show parallelE (fun kv : String × TxoRow => (fun t => (Except.ok (sg t) :
      Except String (Option SpentRow))) kv.2) txos = .ok (txos.map (fun kv => sg kv.2))
    from hpe, txIdSet]
  dsimp only
  rw [zip_map_foldl_spenders]

/-- Claim C6: `transactionIdsByScriptId` fails when the underlying
`txosByScriptId` fails or any of the parallel `spentFromTxo` lookups
fails; on success it returns, without duplicates, the union of (a) the
creating txId of every returned txo and (b) the spender's txId of every
txo reported spent; and the repository function is exactly the
composition with the in-store (total) lookups. -/
theorem c6_transaction_ids (txos : List (String × TxoRow))
    (sg : TxoRow → Option SpentRow)
    (spentGetE : TxoRow → Except String (Option SpentRow))
    (kv0 : String × TxoRow) (e : String) (x : Nat)
    (db : DB) (S : Nat) (H : Int)
    (hkv0 : kv0 ∈ txos) (herr : spentGetE kv0.2 = .error e) :
    transactionIdsByScriptIdG (.error e) spentGetE = .error e ∧
    isErr (transactionIdsByScriptIdG (.ok txos) spentGetE) = true ∧
    transactionIdsByScriptIdG (.ok txos) (fun t => .ok (sg t)) =
      .ok (txIdSet txos sg) ∧
    (txIdSet txos sg).Nodup ∧
    (x ∈ txIdSet txos sg ↔
      (∃ kv ∈ txos, kv.2.txId = x) ∨
      (∃ kv ∈ txos, ∃ sp, sg kv.2 = some sp ∧ sp.txId = x)) ∧
    transactionIdsByScriptId db S H =
      transactionIdsByScriptIdG (.ok (txosByScriptId db S H))
        (fun txo => .ok (spentFromTxo db txo)) := by
  refine ⟨rfl, ?_, transactionIdsByScriptIdG_ok txos sg, txIdSet_nodup txos sg,
    txIdSet_mem txos sg x, rfl⟩
  obtain ⟨e2, he2⟩ := parallelE_error (fun kv => spentGetE kv.2) txos kv0 hkv0 ⟨e, herr⟩
  rw [transactionIdsByScriptIdG, he2]
  rfl

/-- Witness for C6: two txos of script 2; txo of tx 3 is spent by tx 9, the
other is unspent; a failing read makes the call fail; the id set is
{9, 3, 4}. -/
theorem c6_transaction_ids_witness :
    (("3:0", TxoRow.mk 3 0 2 1) : String × TxoRow) ∈
      [(("3:0" : String), TxoRow.mk 3 0 2 1), (("4:1" : String), TxoRow.mk 4 1 2 1)] ∧
    ((fun _ => .error "ReadError" : TxoRow → Except String (Option SpentRow))
      (TxoRow.mk 3 0 2 1) = .error "ReadError") ∧
    (transactionIdsByScriptIdG (.error "ReadError")
       (fun _ => .error "ReadError") = .error "ReadError" ∧
     isErr (transactionIdsByScriptIdG
       (.ok [("3:0", TxoRow.mk 3 0 2 1), ("4:1", TxoRow.mk 4 1 2 1)])
       (fun _ => .error "ReadError")) = true ∧
     transactionIdsByScriptIdG
         (.ok [("3:0", TxoRow.mk 3 0 2 1), ("4:1", TxoRow.mk 4 1 2 1)])
         (fun t => .ok (if t.txId = 3 then some ⟨9, 0⟩ else none)) =
       .ok (txIdSet [("3:0", TxoRow.mk 3 0 2 1), ("4:1", TxoRow.mk 4 1 2 1)]
         (fun t => if t.txId = 3 then some ⟨9, 0⟩ else none)) ∧
     (txIdSet [("3:0", TxoRow.mk 3 0 2 1), ("4:1", TxoRow.mk 4 1 2 1)]
       (fun t => if t.txId = 3 then some ⟨9, 0⟩ else none)).Nodup ∧
     ((9 : Nat) ∈ txIdSet [("3:0", TxoRow.mk 3 0 2 1), ("4:1", TxoRow.mk 4 1 2 1)]
         (fun t => if t.txId = 3 then some ⟨9, 0⟩ else none) ↔
       (∃ kv ∈ [(("3:0" : String), TxoRow.mk 3 0 2 1), (("4:1" : String), TxoRow.mk 4 1 2 1)],
         kv.2.txId = 9) ∨
       (∃ kv ∈ [(("3:0" : String), TxoRow.mk 3 0 2 1), (("4:1" : String), TxoRow.mk 4 1 2 1)],
         ∃ sp, (if kv.2.txId = 3 then some (SpentRow.mk 9 0) else none) = some sp ∧
           sp.txId = 9)) ∧
     transactionIdsByScriptId dbQ 2 0 =
       transactionIdsByScriptIdG (.ok (txosByScriptId dbQ 2 0))
         (fun txo => .ok (spentFromTxo dbQ txo))) :=
  ⟨by decide, rfl,
   c6_transaction_ids
     [("3:0", TxoRow.mk 3 0 2 1), ("4:1", TxoRow.mk 4 1 2 1)]
     (fun t => if t.txId = 3 then some ⟨9, 0⟩ else none)
     (fun _ => .error "ReadError")
     ("3:0", TxoRow.mk 3 0 2 1) "ReadError" 9 dbQ 2 0
     (by decide) rfl⟩

end Indexd
